import Mathlib

/-!
Shallow embedding of the region-mask authoring and coordinate-normalization
subsystem of the D1AIstudio repository: the rectangle selection algebra
(subtractRect and the drag lifecycle), the pointer coordinate mapper, the
paint-surface bounding-box scans, and the edit-zone normalization performed
at submission time.  JavaScript numbers are modelled as rationals.
-/

namespace D1Studio

/-- Axis-aligned rectangle, the Rect record of both editors. -/
structure Rect where
  x : ℚ
  y : ℚ
  w : ℚ
  h : ℚ
deriving DecidableEq, Repr

/-- Rectangle subtraction, as both editors implement it: intersection bounds
first, then up to four strips (top, bottom, left, right). -/
def subtractRect (r1 r2 : Rect) : List Rect :=
  let x1 := max r1.x r2.x
  let y1 := max r1.y r2.y
  let x2 := min (r1.x + r1.w) (r2.x + r2.w)
  let y2 := min (r1.y + r1.h) (r2.y + r2.h)
  if x2 ≤ x1 ∨ y2 ≤ y1 then [r1]
  else
    (if r1.y < y1 then [Rect.mk r1.x r1.y r1.w (y1 - r1.y)] else []) ++
    (if y2 < r1.y + r1.h then [Rect.mk r1.x y2 r1.w (r1.y + r1.h - y2)] else []) ++
    (if r1.x < x1 then [Rect.mk r1.x y1 (x1 - r1.x) (y2 - y1)] else []) ++
    (if x2 < r1.x + r1.w then [Rect.mk x2 y1 (r1.x + r1.w - x2) (y2 - y1)] else [])

/-- Point membership in a rectangle, half-open on the far edges. -/
def Rect.memPt (r : Rect) (p : ℚ × ℚ) : Prop :=
  r.x ≤ p.1 ∧ p.1 < r.x + r.w ∧ r.y ≤ p.2 ∧ p.2 < r.y + r.h

instance (r : Rect) (p : ℚ × ℚ) : Decidable (r.memPt p) := by
  unfold Rect.memPt; infer_instance

/-- The intersection rectangle of two rectangles, written with the same
bounds the code computes. -/
def interRect (a b : Rect) : Rect :=
  Rect.mk (max a.x b.x) (max a.y b.y)
    (min (a.x + a.w) (b.x + b.w) - max a.x b.x)
    (min (a.y + a.h) (b.y + b.h) - max a.y b.y)

/-- The four candidate strips in the fixed order the spec describes: top
(from a.y down to iy1), bottom (from iy2 down to a.y+a.h), left (from a.x
across to ix1, height-clamped to the vertical span of the intersection),
right (from ix2 across to a.x+a.w, same vertical clamp). -/
def specStrips (a b : Rect) : List Rect :=
  let ix1 := max a.x b.x
  let iy1 := max a.y b.y
  let ix2 := min (a.x + a.w) (b.x + b.w)
  let iy2 := min (a.y + a.h) (b.y + b.h)
  [Rect.mk a.x a.y a.w (iy1 - a.y),
   Rect.mk a.x iy2 a.w (a.y + a.h - iy2),
   Rect.mk a.x iy1 (ix1 - a.x) (iy2 - iy1),
   Rect.mk ix2 iy1 (a.x + a.w - ix2) (iy2 - iy1)]

/-- Non-negative dimensions. -/
def Rect.nonneg (r : Rect) : Prop := 0 ≤ r.w ∧ 0 ≤ r.h

/-- A pointer event, reduced to its client coordinates. -/
structure MouseEvent where
  clientX : ℚ
  clientY : ℚ
deriving DecidableEq, Repr

/-- The layout data the full-page editor reads per event: the container
bounding rectangle origin, the zoom scale, the displayed image size and the
natural (native) image size. -/
structure Layout where
  rectLeft : ℚ
  rectTop : ℚ
  scale : ℚ
  displayedWidth : ℚ
  displayedHeight : ℚ
  naturalWidth : ℚ
  naturalHeight : ℚ
deriving DecidableEq, Repr

/-- The record getPointerPos returns: native-space x and y plus the visual
(display-space) coordinates. -/
structure PointerPos where
  x : ℚ
  y : ℚ
  visualX : ℚ
  visualY : ℚ
deriving DecidableEq, Repr

/-- The coordinate mapper of the full-page editor (getPointerPos): visual
space is the client position minus the container origin over the zoom scale;
native space scales visual space by naturalDimension over displayedDimension
per axis, with a zero fallback while the image has no layout. -/
def getPointerPos (l : Layout) (e : MouseEvent) : PointerPos :=
  let visualX := (e.clientX - l.rectLeft) / l.scale
  let visualY := (e.clientY - l.rectTop) / l.scale
  if l.displayedWidth = 0 ∨ l.displayedHeight = 0 then
    PointerPos.mk 0 0 visualX visualY
  else
    let scaleX := l.naturalWidth / l.displayedWidth
    let scaleY := l.naturalHeight / l.displayedHeight
    PointerPos.mk (visualX * scaleX) (visualY * scaleY) visualX visualY

/-- The selection-relevant state of the full-page editor. -/
structure EditorState where
  selections : List Rect
  currentSelection : Option Rect
  isDrawing : Bool
  dragStart : ℚ × ℚ
deriving DecidableEq, Repr

/-- handleMouseDown of the full-page editor with the select tool active:
replace mode (neither shift nor alt) clears the selections immediately, and
a zero-size provisional rectangle is anchored at the native pointer
position. -/
def handleMouseDown (shift alt : Bool) (l : Layout) (e : MouseEvent)
    (st : EditorState) : EditorState :=
  let p := getPointerPos l e
  EditorState.mk
    (if (!shift && !alt) then [] else st.selections)
    (some (Rect.mk p.x p.y 0 0))
    true
    (p.x, p.y)

/-- handleMouseMove of the full-page editor with the select tool active:
while drawing, the provisional rectangle is the bounding box of the drag
anchor and the current native position. -/
def handleMouseMove (l : Layout) (e : MouseEvent) (st : EditorState) :
    EditorState :=
  if st.isDrawing then
    let p := getPointerPos l e
    EditorState.mk st.selections
      (some (Rect.mk (min st.dragStart.1 p.x) (min st.dragStart.2 p.y)
        |p.x - st.dragStart.1| |p.y - st.dragStart.2|))
      st.isDrawing st.dragStart
  else st

/-- handleMouseUp of the full-page editor with the select tool active: a
provisional rectangle with both dimensions over 5 is committed (subtractive
with alt held, append otherwise); anything else leaves the selections as
they are.  Drawing always stops and the provisional rectangle is dropped. -/
def handleMouseUp (alt : Bool) (st : EditorState) : EditorState :=
  let sels :=
    match st.isDrawing, st.currentSelection with
    | true, some cur =>
        if 5 < cur.w ∧ 5 < cur.h then
          if alt then st.selections.flatMap (fun existing => subtractRect existing cur)
          else st.selections ++ [cur]
        else st.selections
    | _, _ => st.selections
  EditorState.mk sels none false st.dragStart

/-- The layout data the modal editor reads per event: only the container
origin and the zoom scale. -/
structure ModalLayout where
  rectLeft : ℚ
  rectTop : ℚ
  scale : ℚ
deriving DecidableEq, Repr

/-- The pointer mapping of the modal editor: client position minus container
origin, over the zoom scale.  No scaling by natural over displayed size. -/
def modalPointer (l : ModalLayout) (e : MouseEvent) : ℚ × ℚ :=
  ((e.clientX - l.rectLeft) / l.scale, (e.clientY - l.rectTop) / l.scale)

/-- The selection-relevant state of the modal editor. -/
structure ModalState where
  selections : List Rect
  currentSelection : Option Rect
  isDragging : Bool
  dragStart : ℚ × ℚ
deriving DecidableEq, Repr

/-- handleMouseDown of the modal editor with the select tool active. -/
def modalHandleMouseDown (shiftKey altPressed spacePressed : Bool)
    (l : ModalLayout) (e : MouseEvent) (st : ModalState) : ModalState :=
  let p := modalPointer l e
  ModalState.mk
    (if (!shiftKey && !altPressed && !spacePressed) then [] else st.selections)
    (some (Rect.mk p.1 p.2 0 0))
    true
    p

/-- handleMouseMove of the modal editor with the select tool active. -/
def modalHandleMouseMove (spacePressed : Bool) (l : ModalLayout)
    (e : MouseEvent) (st : ModalState) : ModalState :=
  let p := modalPointer l e
  if !st.isDragging then st
  else if spacePressed then st
  else
    ModalState.mk st.selections
      (some (Rect.mk (min st.dragStart.1 p.1) (min st.dragStart.2 p.2)
        |p.1 - st.dragStart.1| |p.2 - st.dragStart.2|))
      st.isDragging st.dragStart

/-- handleMouseUp of the modal editor with the select tool active. -/
def modalHandleMouseUp (altPressed : Bool) (st : ModalState) : ModalState :=
  let sels :=
    match st.isDragging, st.currentSelection with
    | true, some cur =>
        if 5 < cur.w ∧ 5 < cur.h then
          if altPressed then st.selections.flatMap (fun existing => subtractRect existing cur)
          else st.selections ++ [cur]
        else st.selections
    | _, _ => st.selections
  ModalState.mk sels none false st.dragStart

/-- A normalized edit zone, the four integers of one EDIT_ZONE tag. -/
structure EditZone where
  y1 : ℤ
  x1 : ℤ
  y2 : ℤ
  x2 : ℤ
deriving DecidableEq, Repr

/-- The floor-based normalization of one rectangle into the 1000-unit grid,
as both submission paths compute it. -/
def normalizeZone (r : Rect) (naturalW naturalH : ℚ) : EditZone :=
  EditZone.mk
    ⌊r.y / naturalH * 1000⌋
    ⌊r.x / naturalW * 1000⌋
    ⌊(r.y + r.h) / naturalH * 1000⌋
    ⌊(r.x + r.w) / naturalW * 1000⌋

/-- One EDIT_ZONE annotation as appended to the outgoing prompt. -/
def zoneTag (z : EditZone) : String :=
  " [EDIT_ZONE: " ++ toString z.y1 ++ ", " ++ toString z.x1 ++ ", " ++
    toString z.y2 ++ ", " ++ toString z.x2 ++ "]"

/-- The user-facing no-region message, shared verbatim by both editors. -/
def noRegionMsg : String := "Please select or paint an area to edit."

/-- The paint surface: a raster of the given size with an alpha value per
pixel coordinate. -/
structure PaintSurface where
  width : ℕ
  height : ℕ
  alpha : ℕ → ℕ → ℕ

/-- Running bounds of the bounding-box scans. -/
structure ScanState where
  minX : ℕ
  minY : ℕ
  maxX : ℕ
  maxY : ℕ
  found : Bool
deriving DecidableEq, Repr

/-- One scan step: a pixel with non-zero alpha widens the running bounds. -/
def scanStep (alpha : ℕ → ℕ → ℕ) (st : ScanState) (q : ℕ × ℕ) : ScanState :=
  if 0 < alpha q.1 q.2 then
    ScanState.mk (min st.minX q.1) (min st.minY q.2)
      (max st.maxX q.1) (max st.maxY q.2) true
  else st

/-- The sampled coordinates of the strided scan: multiples of 5 below n. -/
def sampleCoords (n : ℕ) : List ℕ :=
  (List.range ((n + 4) / 5)).map (fun i => 5 * i)

/-- The sampled pixel grid of the full-page scan, row by row. -/
def samplePoints (w h : ℕ) : List (ℕ × ℕ) :=
  (sampleCoords h).flatMap (fun y => (sampleCoords w).map (fun x => (x, y)))

/-- getMaskBoundingBox of the full-page editor: scan every fifth pixel on
each axis and return the bounds of the opaque samples, or nothing. -/
def getMaskBoundingBox (s : PaintSurface) : Option Rect :=
  let final := (samplePoints s.width s.height).foldl (scanStep s.alpha)
    (ScanState.mk s.width s.height 0 0 false)
  if final.found then
    some (Rect.mk (final.minX : ℚ) (final.minY : ℚ)
      ((final.maxX : ℚ) - final.minX) ((final.maxY : ℚ) - final.minY))
  else none

/-- The full pixel grid of the modal scan, row by row. -/
def allPoints (w h : ℕ) : List (ℕ × ℕ) :=
  (List.range h).flatMap (fun y => (List.range w).map (fun x => (x, y)))

/-- getCanvasBoundingBox of the modal editor: the same scan over every
pixel. -/
def getCanvasBoundingBox (s : PaintSurface) : Option Rect :=
  let final := (allPoints s.width s.height).foldl (scanStep s.alpha)
    (ScanState.mk s.width s.height 0 0 false)
  if final.found then
    some (Rect.mk (final.minX : ℚ) (final.minY : ℚ)
      ((final.maxX : ℚ) - final.minX) ((final.maxY : ℚ) - final.minY))
  else none

/-- The combined zone list resolved at submission time: the selections plus
the drawn bounding box when present. -/
def resolveEditZones (selections : List Rect) (drawnRect : Option Rect) :
    List Rect :=
  selections ++ drawnRect.toList

/-- The outgoing request of the full-page editor, as handed to the external
generation call. -/
structure EditRequest where
  finalPrompt : String
  zones : List EditZone
deriving DecidableEq, Repr

/-- handleEdit of the full-page editor, reduced to its zone logic: with at
least one combined zone the prompt is extended with one EDIT_ZONE tag per
zone and the external call is made; otherwise the submission stops locally
with the no-region error and no call happens. -/
def handleEdit (prompt : String) (selections : List Rect)
    (drawnRect : Option Rect) (naturalW naturalH : ℚ) :
    Except String EditRequest :=
  let allZones := resolveEditZones selections drawnRect
  if 0 < allZones.length then
    let zones := allZones.map (fun r => normalizeZone r naturalW naturalH)
    Except.ok (EditRequest.mk
      (prompt ++ String.join (zones.map zoneTag)) zones)
  else
    Except.error noRegionMsg

/-- handleZoneEdit of the modal editor, reduced to its zone logic: an empty
combined list stops locally with the no-region alert; otherwise the zones
are normalized with the displayed dimensions and the strict-inpainting
prompt goes out. -/
def handleZoneEdit (editPrompt : String) (selections : List Rect)
    (drawnRect : Option Rect) (displayW displayH : ℚ) :
    Except String EditRequest :=
  let finalSelections := resolveEditZones selections drawnRect
  if finalSelections.length = 0 then
    Except.error noRegionMsg
  else
    let zones := finalSelections.map (fun r => normalizeZone r displayW displayH)
    Except.ok (EditRequest.mk
      (editPrompt ++ ". STRICT INPAINTING INSTRUCTION: Only modify the pixels within the regions defined by these coordinates (0-1000 scale):" ++
        String.join (zones.map zoneTag) ++
        ". The rest of the image MUST remain identical pixel-for-pixel. Do not change the background or any other element outside the selected zones.")
      zones)

/-- Non-negative dimensions everywhere in an editor state. -/
def EditorState.nonneg (st : EditorState) : Prop :=
  (∀ r ∈ st.selections, r.nonneg) ∧ (∀ r ∈ st.currentSelection, r.nonneg)

/-- One pointer event of the full-page editor with the select tool active,
as routed to the three handlers. -/
inductive EditorEvent where
  | down (shift alt : Bool) (l : Layout) (e : MouseEvent)
  | move (l : Layout) (e : MouseEvent)
  | up (alt : Bool)

/-- Dispatch of one pointer event to its handler. -/
def editorStep (ev : EditorEvent) (st : EditorState) : EditorState :=
  match ev with
  | .down shift alt l e => handleMouseDown shift alt l e st
  | .move l e => handleMouseMove l e st
  | .up alt => handleMouseUp alt st

/-- A whole interaction: the events applied in order. -/
def runEvents (evs : List EditorEvent) (st : EditorState) : EditorState :=
  match evs with
  | [] => st
  | ev :: rest => runEvents rest (editorStep ev st)

/-- The state the full-page editor mounts with: no selections, no
provisional rectangle, not drawing. -/
def initialEditorState : EditorState :=
  EditorState.mk [] none false (0, 0)

/-- A 5 by 5 paint surface whose only opaque pixel sits at (1, 1), off the
stride-5 sample grid of the full-page scan. -/
def missedSurf : PaintSurface :=
  PaintSurface.mk 5 5 (fun x y => if x = 1 ∧ y = 1 then 255 else 0)

/-- A 5 by 5 paint surface whose only opaque pixel sits at (0, 0), on the
sample grid, giving a bounding box of zero width and height. -/
def dotSurf : PaintSurface :=
  PaintSurface.mk 5 5 (fun x y => if x = 0 ∧ y = 0 then 255 else 0)

/-! ## Helper lemmas -/

theorem mem_strips {c1 c2 c3 c4 : Prop} [Decidable c1] [Decidable c2]
    [Decidable c3] [Decidable c4] {s1 s2 s3 s4 r : Rect} :
    (r ∈ (if c1 then [s1] else []) ++ (if c2 then [s2] else []) ++
        (if c3 then [s3] else []) ++ (if c4 then [s4] else [])) ↔
      (c1 ∧ r = s1) ∨ (c2 ∧ r = s2) ∨ (c3 ∧ r = s3) ∨ (c4 ∧ r = s4) := by
  split_ifs with h1 h2 h3 h4 <;> simp_all

theorem exists_mem_strips {c1 c2 c3 c4 : Prop} [Decidable c1] [Decidable c2]
    [Decidable c3] [Decidable c4] {s1 s2 s3 s4 : Rect} {P : Rect → Prop} :
    (∃ r ∈ (if c1 then [s1] else []) ++ (if c2 then [s2] else []) ++
        (if c3 then [s3] else []) ++ (if c4 then [s4] else []), P r) ↔
      (c1 ∧ P s1) ∨ (c2 ∧ P s2) ∨ (c3 ∧ P s3) ∨ (c4 ∧ P s4) := by
  constructor
  · rintro ⟨r, hr, hP⟩
    rcases mem_strips.mp hr with ⟨hc, rfl⟩ | ⟨hc, rfl⟩ | ⟨hc, rfl⟩ | ⟨hc, rfl⟩
    · exact Or.inl ⟨hc, hP⟩
    · exact Or.inr (Or.inl ⟨hc, hP⟩)
    · exact Or.inr (Or.inr (Or.inl ⟨hc, hP⟩))
    · exact Or.inr (Or.inr (Or.inr ⟨hc, hP⟩))
  · rintro (⟨hc, hP⟩ | ⟨hc, hP⟩ | ⟨hc, hP⟩ | ⟨hc, hP⟩)
    · exact ⟨s1, mem_strips.mpr (Or.inl ⟨hc, rfl⟩), hP⟩
    · exact ⟨s2, mem_strips.mpr (Or.inr (Or.inl ⟨hc, rfl⟩)), hP⟩
    · exact ⟨s3, mem_strips.mpr (Or.inr (Or.inr (Or.inl ⟨hc, rfl⟩))), hP⟩
    · exact ⟨s4, mem_strips.mpr (Or.inr (Or.inr (Or.inr ⟨hc, rfl⟩))), hP⟩

/-- Rectangles separated vertically have no common point. -/
theorem rect_disjoint_y {r s : Rect} (h : r.y + r.h ≤ s.y) :
    ∀ p : ℚ × ℚ, ¬(r.memPt p ∧ s.memPt p) := by
  intro p hp
  obtain ⟨hm, hn⟩ := hp
  simp only [Rect.memPt] at hm hn
  obtain ⟨_, _, _, m4⟩ := hm
  obtain ⟨_, _, n3, _⟩ := hn
  linarith

/-- Rectangles separated horizontally have no common point. -/
theorem rect_disjoint_x {r s : Rect} (h : r.x + r.w ≤ s.x) :
    ∀ p : ℚ × ℚ, ¬(r.memPt p ∧ s.memPt p) := by
  intro p hp
  obtain ⟨hm, hn⟩ := hp
  simp only [Rect.memPt] at hm hn
  obtain ⟨_, m2, _, _⟩ := hm
  obtain ⟨n1, _, _, _⟩ := hn
  linarith

/-- Every rectangle subtractRect returns from non-negative inputs has
non-negative dimensions. -/
theorem subtractRect_nonneg {a b : Rect} (ha : a.nonneg) (_hb : b.nonneg) :
    ∀ r ∈ subtractRect a b, r.nonneg := by
  intro r hr
  simp only [subtractRect] at hr
  by_cases hemp : min (a.x + a.w) (b.x + b.w) ≤ max a.x b.x ∨
      min (a.y + a.h) (b.y + b.h) ≤ max a.y b.y
  · rw [if_pos hemp] at hr
    simp only [List.mem_singleton] at hr
    subst hr
    exact ha
  · rw [if_neg hemp] at hr
    push_neg at hemp
    obtain ⟨hx, hy⟩ := hemp
    have hax : a.x ≤ max a.x b.x := le_max_left _ _
    have hay : a.y ≤ max a.y b.y := le_max_left _ _
    have hxw : min (a.x + a.w) (b.x + b.w) ≤ a.x + a.w := min_le_left _ _
    have hyh : min (a.y + a.h) (b.y + b.h) ≤ a.y + a.h := min_le_left _ _
    rcases mem_strips.mp hr with ⟨hc, rfl⟩ | ⟨hc, rfl⟩ | ⟨hc, rfl⟩ | ⟨hc, rfl⟩ <;>
      exact ⟨by dsimp only; linarith [ha.1, ha.2], by dsimp only; linarith⟩

/-- Every rectangle subtractRect returns from a first rectangle with
strictly positive dimensions again has strictly positive dimensions: the
no-overlap branch returns that rectangle itself, and every emitted strip is
non-empty by its guard. -/
theorem subtractRect_pos {a b : Rect} (haw : 0 < a.w) (hah : 0 < a.h) :
    ∀ r ∈ subtractRect a b, 0 < r.w ∧ 0 < r.h := by
  intro r hr
  simp only [subtractRect] at hr
  by_cases hemp : min (a.x + a.w) (b.x + b.w) ≤ max a.x b.x ∨
      min (a.y + a.h) (b.y + b.h) ≤ max a.y b.y
  · rw [if_pos hemp] at hr
    simp only [List.mem_singleton] at hr
    subst hr
    exact ⟨haw, hah⟩
  · rw [if_neg hemp] at hr
    push_neg at hemp
    obtain ⟨hx, hy⟩ := hemp
    rcases mem_strips.mp hr with ⟨hc, rfl⟩ | ⟨hc, rfl⟩ | ⟨hc, rfl⟩ | ⟨hc, rfl⟩ <;>
      exact ⟨by dsimp only; linarith, by dsimp only; linarith⟩

/-- Pointer release preserves strict positivity of all selection
dimensions: a committed rectangle passed the over-5 threshold, and a
subtractive commit replaces positive rectangles by their subtraction
strips, which are positive again. -/
theorem handleMouseUp_posDims {alt : Bool} {st : EditorState}
    (h : ∀ r ∈ st.selections, 0 < r.w ∧ 0 < r.h) :
    ∀ r ∈ (handleMouseUp alt st).selections, 0 < r.w ∧ 0 < r.h := by
  intro r hr
  simp only [handleMouseUp] at hr
  rcases hd : st.isDrawing with _ | _ <;> rw [hd] at hr
  · exact h r hr
  · rcases hcur : st.currentSelection with _ | cur <;> rw [hcur] at hr
    · exact h r hr
    · dsimp only at hr
      by_cases hth : 5 < cur.w ∧ 5 < cur.h
      · rw [if_pos hth] at hr
        by_cases halt : alt = true
        · rw [if_pos halt] at hr
          obtain ⟨ex, hex, hrx⟩ := List.mem_flatMap.mp hr
          exact subtractRect_pos (h ex hex).1 (h ex hex).2 r hrx
        · rw [if_neg halt] at hr
          rcases List.mem_append.mp hr with hl | hl
          · exact h r hl
          · rw [List.mem_singleton] at hl
            subst hl
            exact ⟨by linarith [hth.1], by linarith [hth.2]⟩
      · rw [if_neg hth] at hr
        exact h r hr

/-- Every single pointer event preserves strict positivity of all
selection dimensions. -/
theorem editorStep_posDims {ev : EditorEvent} {st : EditorState}
    (h : ∀ r ∈ st.selections, 0 < r.w ∧ 0 < r.h) :
    ∀ r ∈ (editorStep ev st).selections, 0 < r.w ∧ 0 < r.h := by
  cases ev with
  | down shift alt l e =>
      intro r hr
      simp only [editorStep, handleMouseDown] at hr
      split at hr
      · exact absurd hr (List.not_mem_nil r)
      · exact h r hr
  | move l e =>
      intro r hr
      simp only [editorStep, handleMouseMove] at hr
      by_cases hd : st.isDrawing = true
      · rw [if_pos hd] at hr
        exact h r hr
      · rw [if_neg hd] at hr
        exact h r hr
  | up alt => exact handleMouseUp_posDims h

/-- Running any event list preserves strict positivity of all selection
dimensions. -/
theorem runEvents_posDims {evs : List EditorEvent} {st : EditorState}
    (h : ∀ r ∈ st.selections, 0 < r.w ∧ 0 < r.h) :
    ∀ r ∈ (runEvents evs st).selections, 0 < r.w ∧ 0 < r.h := by
  induction evs generalizing st with
  | nil => exact h
  | cons ev rest ih => exact ih (editorStep_posDims h)

/-- A fold of the scan step over any pixel list of an all-transparent
surface never moves off the initial state. -/
theorem scan_foldl_zero {alpha : ℕ → ℕ → ℕ} (hz : ∀ x y, alpha x y = 0)
    (pts : List (ℕ × ℕ)) (st : ScanState) :
    pts.foldl (scanStep alpha) st = st := by
  induction pts generalizing st with
  | nil => rfl
  | cons q rest ih =>
      rw [List.foldl_cons]
      have hstep : scanStep alpha st q = st := by
        unfold scanStep
        rw [hz q.1 q.2]
        simp
      rw [hstep, ih]

/-- Bounds of the floor-based normalization of one in-range coordinate. -/
theorem floor_scaled_bounds {v D : ℚ} (hD : 0 < D) (h0 : 0 ≤ v) (h1 : v ≤ D) :
    0 ≤ ⌊v / D * 1000⌋ ∧ ⌊v / D * 1000⌋ ≤ 1000 := by
  constructor
  · exact Int.floor_nonneg.mpr
      (mul_nonneg (div_nonneg h0 hD.le) (by norm_num))
  · have hdiv : v / D ≤ 1 := (div_le_one hD).mpr h1
    have h2 : v / D * 1000 ≤ 1000 := by nlinarith
    calc ⌊v / D * 1000⌋ ≤ ⌊(1000 : ℚ)⌋ := Int.floor_le_floor h2
    _ = 1000 := by norm_num

/-- The unfolded shape of subtractRect in the overlapping case. -/
theorem subtractRect_of_overlap (a b : Rect)
    (hx : max a.x b.x < min (a.x + a.w) (b.x + b.w))
    (hy : max a.y b.y < min (a.y + a.h) (b.y + b.h)) :
    subtractRect a b =
      (if a.y < max a.y b.y then
        [Rect.mk a.x a.y a.w (max a.y b.y - a.y)] else []) ++
      (if min (a.y + a.h) (b.y + b.h) < a.y + a.h then
        [Rect.mk a.x (min (a.y + a.h) (b.y + b.h)) a.w
          (a.y + a.h - min (a.y + a.h) (b.y + b.h))] else []) ++
      (if a.x < max a.x b.x then
        [Rect.mk a.x (max a.y b.y) (max a.x b.x - a.x)
          (min (a.y + a.h) (b.y + b.h) - max a.y b.y)] else []) ++
      (if min (a.x + a.w) (b.x + b.w) < a.x + a.w then
        [Rect.mk (min (a.x + a.w) (b.x + b.w)) (max a.y b.y)
          (a.x + a.w - min (a.x + a.w) (b.x + b.w))
          (min (a.y + a.h) (b.y + b.h) - max a.y b.y)] else []) := by
  have hne : ¬(min (a.x + a.w) (b.x + b.w) ≤ max a.x b.x ∨
      min (a.y + a.h) (b.y + b.h) ≤ max a.y b.y) := by
    push_neg
    exact ⟨hx, hy⟩
  simp only [subtractRect]
  rw [if_neg hne]

/-! ## Claim theorems -/

/-- Claim C1: subtractRect returns the first rectangle unchanged when the
intersection bounds are empty; otherwise it returns, in the fixed order top,
bottom, left, right, exactly the non-empty strips, which are pairwise
non-overlapping and whose union covers exactly the points of the first
rectangle outside the intersection, the left and right strips being
height-clamped to the vertical span of the intersection. -/
theorem subtractRect_cases (a b : Rect) :
    (min (a.x + a.w) (b.x + b.w) ≤ max a.x b.x ∨
       min (a.y + a.h) (b.y + b.h) ≤ max a.y b.y →
      subtractRect a b = [a]) ∧
    (max a.x b.x < min (a.x + a.w) (b.x + b.w) →
     max a.y b.y < min (a.y + a.h) (b.y + b.h) →
      subtractRect a b =
        (specStrips a b).filter (fun r => decide (0 < r.w) && decide (0 < r.h)) ∧
      (subtractRect a b).Pairwise
        (fun r s => ∀ p : ℚ × ℚ, ¬(r.memPt p ∧ s.memPt p)) ∧
      (∀ p : ℚ × ℚ, (∃ r ∈ subtractRect a b, r.memPt p) ↔
        (a.memPt p ∧ ¬ (interRect a b).memPt p))) := by
  constructor
  · intro h
    simp only [subtractRect]
    rw [if_pos h]
  · intro hx hy
    have hax : a.x ≤ max a.x b.x := le_max_left _ _
    have hay : a.y ≤ max a.y b.y := le_max_left _ _
    have hxw : min (a.x + a.w) (b.x + b.w) ≤ a.x + a.w := min_le_left _ _
    have hyh : min (a.y + a.h) (b.y + b.h) ≤ a.y + a.h := min_le_left _ _
    have haw : 0 < a.w := by linarith
    have hah : 0 < a.h := by linarith
    have hE := subtractRect_of_overlap a b hx hy
    have hfil : subtractRect a b =
        (specStrips a b).filter (fun r => decide (0 < r.w) && decide (0 < r.h)) := by
      rw [hE]
      simp only [specStrips, List.filter_cons, List.filter_nil,
        Bool.and_eq_true, decide_eq_true_eq, sub_pos, haw, hy, true_and,
        and_true]
      split_ifs <;> simp
    refine ⟨hfil, ?_, ?_⟩
    · have hpair : (specStrips a b).Pairwise
          (fun r s => ∀ p : ℚ × ℚ, ¬(r.memPt p ∧ s.memPt p)) := by
        unfold specStrips
        dsimp only
        refine List.Pairwise.cons ?_ (List.Pairwise.cons ?_
          (List.Pairwise.cons ?_ (List.Pairwise.cons ?_ List.Pairwise.nil)))
        · intro r' hr'
          simp only [List.mem_cons, List.not_mem_nil, or_false] at hr'
          rcases hr' with rfl | rfl | rfl
          · exact rect_disjoint_y (by dsimp only; linarith)
          · exact rect_disjoint_y (by dsimp only; linarith)
          · exact rect_disjoint_y (by dsimp only; linarith)
        · intro r' hr'
          simp only [List.mem_cons, List.not_mem_nil, or_false] at hr'
          rcases hr' with rfl | rfl
          · exact fun p hp => rect_disjoint_y (by dsimp only; linarith) p
              ⟨hp.2, hp.1⟩
          · exact fun p hp => rect_disjoint_y (by dsimp only; linarith) p
              ⟨hp.2, hp.1⟩
        · intro r' hr'
          simp only [List.mem_cons, List.not_mem_nil, or_false] at hr'
          rcases hr' with rfl
          exact rect_disjoint_x (by dsimp only; linarith)
        · intro r' hr'
          exact absurd hr' (List.not_mem_nil r')
      rw [hfil]
      exact hpair.sublist (List.filter_sublist _)
    · intro p
      rw [hE]
      rw [exists_mem_strips]
      simp only [Rect.memPt, interRect]
      constructor
      · rintro (⟨hc, m1, m2, m3, m4⟩ | ⟨hc, m1, m2, m3, m4⟩ |
            ⟨hc, m1, m2, m3, m4⟩ | ⟨hc, m1, m2, m3, m4⟩) <;>
          refine ⟨⟨by linarith, by linarith, by linarith, by linarith⟩, ?_⟩ <;>
          rintro ⟨g1, g2, g3, g4⟩ <;> linarith
      · rintro ⟨⟨m1, m2, m3, m4⟩, hni⟩
        rcases lt_or_le p.2 (max a.y b.y) with hc1 | hc1
        · exact Or.inl ⟨by linarith, by linarith, by linarith, by linarith,
            by linarith⟩
        rcases le_or_lt (min (a.y + a.h) (b.y + b.h)) p.2 with hc2 | hc2
        · exact Or.inr (Or.inl ⟨by linarith, by linarith, by linarith,
            by linarith, by linarith⟩)
        rcases lt_or_le p.1 (max a.x b.x) with hc3 | hc3
        · exact Or.inr (Or.inr (Or.inl ⟨by linarith, by linarith, by linarith,
            by linarith, by linarith⟩))
        rcases le_or_lt (min (a.x + a.w) (b.x + b.w)) p.1 with hc4 | hc4
        · exact Or.inr (Or.inr (Or.inr ⟨by linarith, by linarith, by linarith,
            by linarith, by linarith⟩))
        · exact absurd ⟨hc3, by linarith, hc1, by linarith⟩ hni

/-- Claim C2 counterexample: a complete modal-editor drag from client point
(10, 10) to (50, 50) at zoom 1 commits the rectangle (10, 10, 40, 40),
while the native-space x of the same pointer event, for an image displayed
at 100 pixels with a natural width of 200 pixels, is 20; the stored
coordinate 10 is therefore a display-space value, not a native one. -/
theorem modal_stores_display_coords_cex :
    (modalHandleMouseUp false (modalHandleMouseMove false (ModalLayout.mk 0 0 1)
        (MouseEvent.mk 50 50)
        (modalHandleMouseDown false false false (ModalLayout.mk 0 0 1)
          (MouseEvent.mk 10 10) (ModalState.mk [] none false (0, 0))))).selections
      = [Rect.mk 10 10 40 40] ∧
    (getPointerPos (Layout.mk 0 0 1 100 100 200 200) (MouseEvent.mk 10 10)).x = 20 ∧
    (10 : ℚ) ≠ 20 := by
  refine ⟨?_, ?_, by norm_num⟩
  · norm_num [modalHandleMouseDown, modalHandleMouseMove, modalHandleMouseUp,
      modalPointer]
  · norm_num [getPointerPos]

/-- Claim C2 amended: in the full-page editor the native output of the
coordinate mapper is the visual position scaled by naturalDimension over
displayedDimension per axis and the provisional rectangle is anchored at
that native position, while the modal editor anchors its rectangles at the
unscaled visual position (client minus container origin, over zoom). -/
theorem coordinate_spaces_per_editor :
    (∀ (l : Layout) (e : MouseEvent),
       l.displayedWidth ≠ 0 → l.displayedHeight ≠ 0 →
       (getPointerPos l e).x =
         (e.clientX - l.rectLeft) / l.scale * (l.naturalWidth / l.displayedWidth) ∧
       (getPointerPos l e).y =
         (e.clientY - l.rectTop) / l.scale * (l.naturalHeight / l.displayedHeight)) ∧
    (∀ (shift alt : Bool) (l : Layout) (e : MouseEvent) (st : EditorState),
       (handleMouseDown shift alt l e st).currentSelection =
         some (Rect.mk (getPointerPos l e).x (getPointerPos l e).y 0 0)) ∧
    (∀ (sk ap sp : Bool) (l : ModalLayout) (e : MouseEvent) (st : ModalState),
       (modalHandleMouseDown sk ap sp l e st).currentSelection =
         some (Rect.mk ((e.clientX - l.rectLeft) / l.scale)
           ((e.clientY - l.rectTop) / l.scale) 0 0)) := by
  refine ⟨?_, ?_, ?_⟩
  · intro l e h1 h2
    simp only [getPointerPos]
    rw [if_neg (not_or.mpr ⟨h1, h2⟩)]
    exact ⟨rfl, rfl⟩
  · intro shift alt l e st
    rfl
  · intro sk ap sp l e st
    rfl

/-- Claim C3: with an empty selection set and a fully transparent paint
surface the combined zone list is empty, both submission paths stop with
the user-facing no-region message, and the external generation call is
never reached (the result is the error branch, not an outgoing request). -/
theorem no_region_blocks_submission (prompt editPrompt : String)
    (W H dW dH : ℚ) (surf msurf : PaintSurface)
    (h1 : ∀ x y, surf.alpha x y = 0) (h2 : ∀ x y, msurf.alpha x y = 0) :
    getMaskBoundingBox surf = none ∧
    getCanvasBoundingBox msurf = none ∧
    handleEdit prompt [] (getMaskBoundingBox surf) W H =
      Except.error noRegionMsg ∧
    handleZoneEdit editPrompt [] (getCanvasBoundingBox msurf) dW dH =
      Except.error noRegionMsg := by
  have hm : getMaskBoundingBox surf = none := by
    unfold getMaskBoundingBox
    rw [scan_foldl_zero h1]
    rfl
  have hc : getCanvasBoundingBox msurf = none := by
    unfold getCanvasBoundingBox
    rw [scan_foldl_zero h2]
    rfl
  refine ⟨hm, hc, ?_, ?_⟩
  · rw [hm]
    rfl
  · rw [hc]
    rfl

/-- Claim C3 witness at a concrete transparent 5 by 5 surface. -/
theorem no_region_blocks_submission_witness :
    getMaskBoundingBox (PaintSurface.mk 5 5 (fun _ _ => 0)) = none ∧
    getCanvasBoundingBox (PaintSurface.mk 5 5 (fun _ _ => 0)) = none ∧
    handleEdit "p" [] (getMaskBoundingBox (PaintSurface.mk 5 5 (fun _ _ => 0)))
      10 10 = Except.error noRegionMsg ∧
    handleZoneEdit "q" []
      (getCanvasBoundingBox (PaintSurface.mk 5 5 (fun _ _ => 0))) 10 10 =
      Except.error noRegionMsg :=
  no_region_blocks_submission "p" "q" 10 10 10 10
    (PaintSurface.mk 5 5 (fun _ _ => 0)) (PaintSurface.mk 5 5 (fun _ _ => 0))
    (fun _ _ => rfl) (fun _ _ => rfl)

/-- Claim C4 counterexample: a complete replace-mode select gesture whose
final provisional rectangle is 3 by 3 (at or under the 5-unit threshold)
empties a selection set that previously held one committed rectangle: the
clear happens at pointer-down, so the gesture does change the set. -/
theorem sub_threshold_replace_gesture_cex :
    (handleMouseMove (Layout.mk 0 0 1 100 100 100 100) (MouseEvent.mk 23 23)
        (handleMouseDown false false (Layout.mk 0 0 1 100 100 100 100)
          (MouseEvent.mk 20 20)
          (EditorState.mk [Rect.mk 0 0 10 10] none false (0, 0)))).currentSelection
      = some (Rect.mk 20 20 3 3) ∧
    (3 : ℚ) ≤ 5 ∧
    (handleMouseUp false
        (handleMouseMove (Layout.mk 0 0 1 100 100 100 100) (MouseEvent.mk 23 23)
          (handleMouseDown false false (Layout.mk 0 0 1 100 100 100 100)
            (MouseEvent.mk 20 20)
            (EditorState.mk [Rect.mk 0 0 10 10] none false (0, 0))))).selections
      = [] ∧
    ([] : List Rect) ≠ [Rect.mk 0 0 10 10] := by
  refine ⟨?_, by norm_num, ?_, by simp⟩
  · norm_num [handleMouseDown, handleMouseMove, getPointerPos]
  · norm_num [handleMouseDown, handleMouseMove, handleMouseUp, getPointerPos]

/-- Claim C4 amended: pointer release with a provisional rectangle at or
under the 5-unit threshold leaves the selection set unchanged in every
mode; but in replace mode the clearing of the existing selection set
happens at pointer-down, not at commit, so a complete sub-threshold
replace-mode gesture leaves the selection set empty rather than intact. -/
theorem commit_threshold_amended :
    (∀ (alt : Bool) (st : EditorState) (cur : Rect),
       st.currentSelection = some cur → cur.w ≤ 5 ∨ cur.h ≤ 5 →
       (handleMouseUp alt st).selections = st.selections) ∧
    (∀ (l : Layout) (e : MouseEvent) (st : EditorState),
       (handleMouseDown false false l e st).selections = []) := by
  constructor
  · intro alt st cur hcur hsub
    have hns : ¬(5 < cur.w ∧ 5 < cur.h) := by
      rintro ⟨hw, hh⟩
      rcases hsub with h | h <;> linarith
    cases hb : st.isDrawing <;> simp [handleMouseUp, hcur, hb, hns]
  · intro l e st
    rfl

/-- Claim C5: normalizing the full-image rectangle with the floor-based
mapping yields the edit zone (0, 0, 1000, 1000) exactly, for every positive
pair of image dimensions. -/
theorem normalize_full_image (W H : ℚ) (hW : 0 < W) (hH : 0 < H) :
    normalizeZone (Rect.mk 0 0 W H) W H = EditZone.mk 0 0 1000 1000 := by
  have hW0 : W ≠ 0 := ne_of_gt hW
  have hH0 : H ≠ 0 := ne_of_gt hH
  norm_num [normalizeZone, div_self hH0, div_self hW0]

/-- Claim C5 witness at 640 by 480. -/
theorem normalize_full_image_witness :
    normalizeZone (Rect.mk 0 0 640 480) 640 480 = EditZone.mk 0 0 1000 1000 :=
  normalize_full_image 640 480 (by norm_num) (by norm_num)

/-- Claim C6 counterexample: the full-image rectangle on a 10 by 10 image,
in bounds of its own image dimensions, is emitted with y2 = 1000, which
does not lie in the half-open range below 1000. -/
theorem edit_zone_reaches_1000_cex :
    Except.map (fun req => req.zones)
        (handleEdit "p" [Rect.mk 0 0 10 10] none 10 10) =
      Except.ok [EditZone.mk 0 0 1000 1000] ∧
    ¬((1000 : ℤ) < 1000) ∧
    ((0 : ℚ) ≤ 0 ∧ (0 : ℚ) + 10 ≤ 10) := by
  refine ⟨?_, by norm_num, by norm_num⟩
  norm_num [handleEdit, resolveEditZones, normalizeZone, Except.map]

/-- Claim C6 amended: every EDIT_ZONE annotation emitted at submission time
from rectangles in bounds of the image dimensions consists of four integers
in the closed range from 0 to 1000 (the far edge of the image lands exactly
on 1000, so the half-open range below 1000 does not hold). -/
theorem edit_zone_range_amended (selections : List Rect)
    (drawnRect : Option Rect) (W H : ℚ) (hW : 0 < W) (hH : 0 < H)
    (hin : ∀ r ∈ resolveEditZones selections drawnRect,
      0 ≤ r.x ∧ 0 ≤ r.y ∧ 0 ≤ r.w ∧ 0 ≤ r.h ∧ r.x + r.w ≤ W ∧ r.y + r.h ≤ H)
    (prompt : String) (req : EditRequest)
    (hok : handleEdit prompt selections drawnRect W H = Except.ok req)
    (z : EditZone) (hz : z ∈ req.zones) :
    0 ≤ z.y1 ∧ 0 ≤ z.x1 ∧ 0 ≤ z.y2 ∧ 0 ≤ z.x2 ∧
    z.y1 ≤ 1000 ∧ z.x1 ≤ 1000 ∧ z.y2 ≤ 1000 ∧ z.x2 ≤ 1000 := by
  simp only [handleEdit] at hok
  by_cases hlen : 0 < (resolveEditZones selections drawnRect).length
  · rw [if_pos hlen] at hok
    have hreq := Except.ok.inj hok
    subst hreq
    obtain ⟨r, hr, rfl⟩ := List.mem_map.mp hz
    obtain ⟨hx0, hy0, hw0, hh0, hxw, hyh⟩ := hin r hr
    have b1 := floor_scaled_bounds hH hy0 (by linarith)
    have b2 := floor_scaled_bounds hW hx0 (by linarith)
    have b3 := floor_scaled_bounds hH (by linarith : 0 ≤ r.y + r.h) hyh
    have b4 := floor_scaled_bounds hW (by linarith : 0 ≤ r.x + r.w) hxw
    exact ⟨b1.1, b2.1, b3.1, b4.1, b1.2, b2.2, b3.2, b4.2⟩
  · rw [if_neg hlen] at hok
    exact absurd hok (by simp)

/-- Claim C6 amended witness: the full-image rectangle on a 10 by 10 image
yields a zone whose four integers all lie between 0 and 1000. -/
theorem edit_zone_range_amended_witness :
    0 ≤ (EditZone.mk 0 0 1000 1000).y1 ∧ 0 ≤ (EditZone.mk 0 0 1000 1000).x1 ∧
    0 ≤ (EditZone.mk 0 0 1000 1000).y2 ∧ 0 ≤ (EditZone.mk 0 0 1000 1000).x2 ∧
    (EditZone.mk 0 0 1000 1000).y1 ≤ 1000 ∧
    (EditZone.mk 0 0 1000 1000).x1 ≤ 1000 ∧
    (EditZone.mk 0 0 1000 1000).y2 ≤ 1000 ∧
    (EditZone.mk 0 0 1000 1000).x2 ≤ 1000 :=
  edit_zone_range_amended [Rect.mk 0 0 10 10] none 10 10 (by norm_num)
    (by norm_num)
    (by
      intro r hr
      simp only [resolveEditZones, Option.toList_none, List.append_nil,
        List.mem_singleton] at hr
      subst hr
      norm_num)
    "p"
    (EditRequest.mk
      ("p" ++ String.join (List.map zoneTag [EditZone.mk 0 0 1000 1000]))
      [EditZone.mk 0 0 1000 1000])
    (by norm_num [handleEdit, resolveEditZones, normalizeZone])
    (EditZone.mk 0 0 1000 1000) (by simp)

/-- Claim C7: the selection algebra only ever produces rectangles with
non-negative dimensions: the provisional rectangle anchored at pointer-down
and rebuilt on every move, every rectangle committed at pointer-up, and
every rectangle subtractRect returns from non-negative inputs. -/
theorem selection_algebra_nonneg :
    (∀ a b : Rect, a.nonneg → b.nonneg → ∀ r ∈ subtractRect a b, r.nonneg) ∧
    (∀ (shift alt : Bool) (l : Layout) (e : MouseEvent) (st : EditorState),
       st.nonneg → (handleMouseDown shift alt l e st).nonneg) ∧
    (∀ (l : Layout) (e : MouseEvent) (st : EditorState),
       st.nonneg → (handleMouseMove l e st).nonneg) ∧
    (∀ (alt : Bool) (st : EditorState),
       st.nonneg → (handleMouseUp alt st).nonneg) := by
  refine ⟨fun a b ha hb => subtractRect_nonneg ha hb, ?_, ?_, ?_⟩
  · intro shift alt l e st h
    obtain ⟨hs, _⟩ := h
    constructor
    · intro r hr
      simp only [handleMouseDown] at hr
      split at hr
      · exact absurd hr (List.not_mem_nil r)
      · exact hs r hr
    · intro r hr
      simp only [handleMouseDown, Option.mem_def, Option.some.injEq] at hr
      subst hr
      exact ⟨le_refl 0, le_refl 0⟩
  · intro l e st h
    obtain ⟨hs, hc⟩ := h
    by_cases hd : st.isDrawing
    · constructor
      · intro r hr
        simp only [handleMouseMove, if_pos hd] at hr
        exact hs r hr
      · intro r hr
        simp only [handleMouseMove, if_pos hd, Option.mem_def,
          Option.some.injEq] at hr
        subst hr
        exact ⟨abs_nonneg _, abs_nonneg _⟩
    · rw [handleMouseMove, if_neg hd]
      exact ⟨hs, hc⟩
  · intro alt st h
    obtain ⟨hs, hc⟩ := h
    constructor
    · intro r hr
      simp only [handleMouseUp] at hr
      rcases hd : st.isDrawing with _ | _ <;> rw [hd] at hr
      · exact hs r hr
      · rcases hcur : st.currentSelection with _ | cur <;> rw [hcur] at hr
        · exact hs r hr
        · have hcn : cur.nonneg := hc cur (by rw [hcur]; rfl)
          dsimp only at hr
          by_cases hth : 5 < cur.w ∧ 5 < cur.h
          · rw [if_pos hth] at hr
            by_cases halt : alt = true
            · rw [if_pos halt] at hr
              obtain ⟨ex, hex, hrx⟩ := List.mem_flatMap.mp hr
              exact subtractRect_nonneg (hs ex hex) hcn r hrx
            · rw [if_neg halt] at hr
              rcases List.mem_append.mp hr with hl | hl
              · exact hs r hl
              · rw [List.mem_singleton] at hl
                subst hl
                exact hcn
          · rw [if_neg hth] at hr
            exact hs r hr
    · intro r hr
      exact absurd hr (by simp [handleMouseUp])

/-- Claim C8: whenever the displayed width or height is zero, the
coordinate mapper returns native coordinates (0, 0); the function is total,
so no error and no division by zero occurs. -/
theorem pointer_zero_when_unlaid (l : Layout) (e : MouseEvent)
    (h : l.displayedWidth = 0 ∨ l.displayedHeight = 0) :
    (getPointerPos l e).x = 0 ∧ (getPointerPos l e).y = 0 := by
  simp only [getPointerPos]
  rw [if_pos h]
  exact ⟨rfl, rfl⟩

/-- Claim C8 witness at a layout with zero displayed width. -/
theorem pointer_zero_when_unlaid_witness :
    (getPointerPos (Layout.mk 0 0 1 0 0 800 600) (MouseEvent.mk 37 53)).x = 0 ∧
    (getPointerPos (Layout.mk 0 0 1 0 0 800 600) (MouseEvent.mk 37 53)).y = 0 :=
  pointer_zero_when_unlaid (Layout.mk 0 0 1 0 0 800 600) (MouseEvent.mk 37 53)
    (Or.inl rfl)

/-- Claim C9 counterexample: a paint surface with one opaque pixel at
(0, 0) produces a mask bounding box of zero width and height, and that
rectangle is included in the zone list resolved at submission time. -/
theorem zero_size_zone_resolved_cex :
    getMaskBoundingBox dotSurf = some (Rect.mk 0 0 0 0) ∧
    resolveEditZones [] (getMaskBoundingBox dotSurf) = [Rect.mk 0 0 0 0] ∧
    (Rect.mk 0 0 0 0).w = 0 ∧ (Rect.mk 0 0 0 0).h = 0 := by
  have hbb : getMaskBoundingBox dotSurf = some (Rect.mk 0 0 0 0) := by
    norm_num [getMaskBoundingBox, samplePoints, sampleCoords, scanStep,
      dotSurf, List.range_succ]
  refine ⟨hbb, ?_, rfl, rfl⟩
  rw [hbb]
  rfl

/-- Claim C9 amended: sub-threshold drag rectangles are dropped silently at
pointer-up and never reach the selection set; every rectangle in any
reachable selection set (any pointer-event sequence from the initial empty
state, including subtractive commits) has strictly positive width and
height, so every resolved zone either has strictly positive dimensions or
is the paint-mask bounding box, which alone may be zero-sized. -/
theorem degenerate_rects_dropped :
    (∀ (alt : Bool) (st : EditorState) (cur : Rect),
       st.currentSelection = some cur → cur.w ≤ 5 ∨ cur.h ≤ 5 →
       (handleMouseUp alt st).selections = st.selections) ∧
    (∀ evs : List EditorEvent,
       ∀ r ∈ (runEvents evs initialEditorState).selections,
         0 < r.w ∧ 0 < r.h) ∧
    (∀ (evs : List EditorEvent) (drawnRect : Option Rect),
       ∀ r ∈ resolveEditZones (runEvents evs initialEditorState).selections
           drawnRect,
         (0 < r.w ∧ 0 < r.h) ∨ drawnRect = some r) := by
  have hrun : ∀ evs : List EditorEvent,
      ∀ r ∈ (runEvents evs initialEditorState).selections,
        0 < r.w ∧ 0 < r.h :=
    fun _ => runEvents_posDims (fun r hr => absurd hr (List.not_mem_nil r))
  refine ⟨?_, hrun, ?_⟩
  · intro alt st cur hcur hsub
    have hns : ¬(5 < cur.w ∧ 5 < cur.h) := by
      rintro ⟨hw, hh⟩
      rcases hsub with h | h <;> linarith
    cases hb : st.isDrawing <;> simp [handleMouseUp, hcur, hb, hns]
  · intro evs drawnRect r hr
    rcases List.mem_append.mp hr with hl | hl
    · exact Or.inl (hrun evs r hl)
    · rcases drawnRect with _ | v
      · exact absurd hl (by simp)
      · simp only [Option.toList_some, List.mem_singleton] at hl
        subst hl
        exact Or.inr rfl

/-- Claim C10: the surface missedSurf holds an opaque pixel, every opaque
pixel of it sits off the multiples of 5 on at least one axis, the strided
scan of the full-page editor finds nothing, and a submission with an empty
selection set then fails with the no-region message even though the surface
is not fully transparent. -/
theorem stride_scan_misses_paint :
    0 < missedSurf.alpha 1 1 ∧
    (∀ x y, 0 < missedSurf.alpha x y → ¬(x % 5 = 0 ∧ y % 5 = 0)) ∧
    getMaskBoundingBox missedSurf = none ∧
    (∀ (prompt : String) (W H : ℚ),
      handleEdit prompt [] (getMaskBoundingBox missedSurf) W H =
        Except.error noRegionMsg) := by
  have hnone : getMaskBoundingBox missedSurf = none := by
    norm_num [getMaskBoundingBox, samplePoints, sampleCoords, scanStep,
      missedSurf, List.range_succ]
  refine ⟨by norm_num [missedSurf], ?_, hnone, ?_⟩
  · intro x y h
    simp only [missedSurf] at h
    by_cases hxy : x = 1 ∧ y = 1
    · obtain ⟨rfl, rfl⟩ := hxy
      decide
    · rw [if_neg hxy] at h
      exact absurd h (by norm_num)
  · intro prompt W H
    rw [hnone]
    rfl

end D1Studio
